import Mathlib

/-
Verification of the MindSpark repository's audio core and trivia components.

The central object is the live-session message handler of the LiveTrivia
component (src/unnamed/part_001, the `onmessage` callback, lines 344-376),
which decodes inbound audio chunks and schedules them for gapless playback,
together with the capture/mute path (lines 333-342, 408-412), the teardown
closure (lines 388-395), the open handshake (lines 314-331), and the
leaderboard / score logic of VisualTrivia.tsx.

Times and durations are modelled as rationals.  The helper module
src/services/audioUtils.ts (base64ToUint8Array, createPcmBlob,
decodeAudioData) is referenced by the code but absent from src/; those
primitives are modelled from the spec where needed and marked as such.
-/

/-- A decoded audio buffer, as produced by decodeAudioData.
Modelled from the spec: decodeAudioData lives in src/services/audioUtils.ts,
which is absent from src/.  Spec section 4.3: the payload decodes to a sample
buffer at its declared rate/channels with duration sampleCount / sampleRate;
the call site (part_001 line 354) fixes the declared rate to 24000, one
channel.  Declared sample rates are positive integers, so the field is a Nat. -/
structure AudioBufferM where
  sampleCount : Nat
  sampleRate : Nat
deriving DecidableEq

/-- Duration of a decoded buffer (AudioBuffer.duration = length / sampleRate). -/
def AudioBufferM.duration (b : AudioBufferM) : ℚ :=
  (b.sampleCount : ℚ) / (b.sampleRate : ℚ)

/-- Outcome of decoding one inline payload.  Modelled from the spec: the
decoder itself is in the absent audioUtils.ts; spec section 7 says a malformed
chunk raises a DecodeError, so the outcome is either a buffer or a failure. -/
inductive InlineData where
  | ok (buf : AudioBufferM)
  | malformed
deriving DecidableEq

/-- One inbound server message as seen by onmessage (part_001 line 344):
it may carry inline audio data (line 346) and may carry the interrupted
flag (line 371); the handler checks both fields in that order. -/
structure LiveMsg where
  data : Option InlineData
  interrupted : Bool
deriving DecidableEq

/-- Scheduler state owned by the Decode and Schedule Pipeline:
nextStartTimeRef.current (the playback cursor, initially 0, line 250) and
sourcesRef.current (the live set of scheduled buffer sources, line 251).
Sources are identified by ids handed out by nextId, which models the object
identity of the AudioBufferSourceNode values created at line 356. -/
structure SchedState where
  nextStartTime : ℚ
  sources : List Nat
  nextId : Nat
deriving DecidableEq

/-- Observable scheduling actions: source.start(time) for a buffer of the
given duration (line 364), and source.stop() (line 372). -/
inductive SchedAction where
  | start (id : Nat) (time : ℚ) (dur : ℚ)
  | stop (id : Nat)
deriving DecidableEq

/-- Synchronous prefix of the audio branch of onmessage, up to the decode
await (line 351): nextStartTimeRef.current = max(nextStartTimeRef.current,
ctx.currentTime). -/
def phaseA (st : SchedState) (now : ℚ) : SchedState :=
  { st with nextStartTime := max st.nextStartTime now }

/-- Continuation of the audio branch after the decode await (lines 356-366):
create a source, start it at the current cursor value, advance the cursor by
the buffer's duration, add the source to the live set. -/
def phaseB (st : SchedState) (buf : AudioBufferM) : SchedState × SchedAction :=
  ({ nextStartTime := st.nextStartTime + buf.duration,
     sources := st.sources ++ [st.nextId],
     nextId := st.nextId + 1 },
   SchedAction.start st.nextId st.nextStartTime buf.duration)

/-- Interruption handling (lines 371-375): stop every live source, clear the
set, reset the cursor to 0. -/
def interruptStep (st : SchedState) : SchedState × List SchedAction :=
  ({ st with sources := [], nextStartTime := 0 }, st.sources.map SchedAction.stop)

/-- The whole onmessage handler (lines 344-376) for one message, processed to
completion before the next message (sequential view; the interleaved view is
liveStep below).  On the audio branch the cursor max-update (line 351)
precedes the decode; if the decode fails the exception aborts the handler, so
nothing is scheduled and the interrupted check below it is skipped. -/
def processMsg (st : SchedState) (now : ℚ) (m : LiveMsg) : SchedState × List SchedAction :=
  match m.data with
  | some (InlineData.ok buf) =>
      let stA := phaseA st now
      let r := phaseB stA buf
      if m.interrupted then
        let ri := interruptStep r.1
        (ri.1, r.2 :: ri.2)
      else (r.1, [r.2])
  | some InlineData.malformed => (phaseA st now, [])
  | none =>
      if m.interrupted then interruptStep st else (st, [])

/-- A message carrying exactly one successfully decodable audio chunk. -/
def audioMsg (buf : AudioBufferM) : LiveMsg := ⟨some (InlineData.ok buf), false⟩

/-- A message carrying a malformed audio chunk. -/
def malformedMsg : LiveMsg := ⟨some InlineData.malformed, false⟩

/-- A pure interruption control message. -/
def interruptMsg : LiveMsg := ⟨none, true⟩

/-- Evaluation of processMsg on a successfully decoded chunk. -/
lemma processMsg_audio_eq (st : SchedState) (now : ℚ) (buf : AudioBufferM) :
    processMsg st now (audioMsg buf) =
      (⟨max st.nextStartTime now + buf.duration, st.sources ++ [st.nextId], st.nextId + 1⟩,
       [SchedAction.start st.nextId (max st.nextStartTime now) buf.duration]) := rfl

/-- Durations of decoded buffers are never negative. -/
lemma AudioBufferM.duration_nonneg (b : AudioBufferM) : 0 ≤ b.duration :=
  div_nonneg (Nat.cast_nonneg _) (Nat.cast_nonneg _)

/-- Claim C1: for every inbound AudioChunk processed by the pipeline, the
decoded buffer is scheduled at start = max(cursor, now), and immediately
afterwards the cursor equals start + d with d = sampleCount / sampleRate of
the decoded buffer (part_001 lines 346-367). -/
theorem chunk_scheduled_at_max_cursor_now (st : SchedState) (now : ℚ) (buf : AudioBufferM) :
    processMsg st now (audioMsg buf) =
      (⟨max st.nextStartTime now + buf.duration, st.sources ++ [st.nextId], st.nextId + 1⟩,
       [SchedAction.start st.nextId (max st.nextStartTime now) buf.duration]) ∧
    buf.duration = (buf.sampleCount : ℚ) / (buf.sampleRate : ℚ) :=
  ⟨rfl, rfl⟩

/-- Claim C2: processing a ControlSignal.Interrupted message from any
scheduler state empties the live set, emits a stop for every buffer that was
live, and resets the cursor to 0, so that the next audio chunk scheduled at
any clock value nowN with 0 ≤ nowN is started exactly at nowN (part_001
lines 370-375; the playback clock of the Web Audio API is never negative). -/
theorem interrupt_clears_and_resets (st : SchedState) (nowI nowN : ℚ)
    (buf : AudioBufferM) (h : 0 ≤ nowN) :
    (processMsg st nowI interruptMsg).1.sources = [] ∧
    (processMsg st nowI interruptMsg).1.nextStartTime = 0 ∧
    (∀ id ∈ st.sources, SchedAction.stop id ∈ (processMsg st nowI interruptMsg).2) ∧
    (processMsg (processMsg st nowI interruptMsg).1 nowN (audioMsg buf)).2 =
      [SchedAction.start st.nextId nowN buf.duration] := by
  refine ⟨rfl, rfl, ?_, ?_⟩
  · intro id hid
    exact List.mem_map_of_mem SchedAction.stop hid
  · show [SchedAction.start st.nextId (max 0 nowN) buf.duration] = _
    rw [max_eq_right h]

/-- Witness for interrupt_clears_and_resets at a concrete state with two live
buffers and a clock value 1. -/
theorem interrupt_clears_and_resets_witness :
    (processMsg ⟨3, [7, 8], 9⟩ 2 interruptMsg).1.sources = [] ∧
    (processMsg ⟨3, [7, 8], 9⟩ 2 interruptMsg).1.nextStartTime = 0 ∧
    (∀ id ∈ (⟨3, [7, 8], 9⟩ : SchedState).sources,
      SchedAction.stop id ∈ (processMsg ⟨3, [7, 8], 9⟩ 2 interruptMsg).2) ∧
    (processMsg (processMsg ⟨3, [7, 8], 9⟩ 2 interruptMsg).1 1
        (audioMsg ⟨12000, 24000⟩)).2 =
      [SchedAction.start 9 1 (AudioBufferM.duration ⟨12000, 24000⟩)] :=
  interrupt_clears_and_resets ⟨3, [7, 8], 9⟩ 2 1 ⟨12000, 24000⟩ (by norm_num)

/-- Sequential run of the onmessage handler over a list of timed inbound
messages, in receipt order, collecting all emitted actions. -/
def runMsgs : SchedState → List (ℚ × LiveMsg) → SchedState × List SchedAction
  | st, [] => (st, [])
  | st, (now, m) :: rest =>
      let r := processMsg st now m
      let r2 := runMsgs r.1 rest
      (r2.1, r.2 ++ r2.2)

/-- The (start time, duration) pairs of the start actions of a trace, in
emission order. -/
def startsOf : List SchedAction → List (ℚ × ℚ)
  | [] => []
  | SchedAction.start _ t d :: rest => (t, d) :: startsOf rest
  | SchedAction.stop _ :: rest => startsOf rest

/-- A stream of audio chunks: each chunk is delivered at its own arrival
clock value (arbitrary inter-arrival delay) and carries a decoded buffer. -/
def chunkStream (chunks : List (ℚ × AudioBufferM)) : List (ℚ × LiveMsg) :=
  chunks.map fun c => (c.1, audioMsg c.2)

/-- Invariant behind claim C3: over any audio-only stream the emitted start
list is a chain in which each start is at least the previous start plus the
previous duration (hence also non-decreasing), and the first start is at
least the initial cursor. -/
lemma startsOf_chunkStream_chain (chunks : List (ℚ × AudioBufferM)) (st : SchedState) :
    List.Chain' (fun a b : ℚ × ℚ => a.1 ≤ b.1 ∧ a.1 + a.2 ≤ b.1)
      (startsOf (runMsgs st (chunkStream chunks)).2) ∧
    (∀ p ∈ (startsOf (runMsgs st (chunkStream chunks)).2).head?,
      st.nextStartTime ≤ p.1) := by
  induction chunks generalizing st with
  | nil => simp [chunkStream, runMsgs, startsOf]
  | cons c rest ih =>
      obtain ⟨now, buf⟩ := c
      have hrun : runMsgs st (chunkStream ((now, buf) :: rest)) =
          (let r := processMsg st now (audioMsg buf)
           let r2 := runMsgs r.1 (chunkStream rest)
           (r2.1, r.2 ++ r2.2)) := by
        simp [chunkStream, runMsgs]
      rw [hrun, processMsg_audio_eq]
      set st1 : SchedState :=
        ⟨max st.nextStartTime now + buf.duration, st.sources ++ [st.nextId], st.nextId + 1⟩
        with hst1
      have hstarts :
          startsOf ([SchedAction.start st.nextId (max st.nextStartTime now) buf.duration]
              ++ (runMsgs st1 (chunkStream rest)).2) =
            (max st.nextStartTime now, buf.duration)
              :: startsOf (runMsgs st1 (chunkStream rest)).2 := by
        simp [startsOf]
      refine ⟨?_, ?_⟩
      · rw [hstarts]
        rw [List.chain'_cons']
        refine ⟨?_, (ih st1).1⟩
        intro p hp
        have hcur : st1.nextStartTime ≤ p.1 := (ih st1).2 p hp
        have hd : 0 ≤ buf.duration := AudioBufferM.duration_nonneg buf
        have h1 : max st.nextStartTime now + buf.duration ≤ p.1 := by
          simpa [hst1] using hcur
        constructor
        · linarith
        · exact h1
      · rw [hstarts]
        intro p hp
        simp only [List.head?_cons, Option.mem_def, Option.some.injEq] at hp
        subst hp
        exact le_max_left _ _

/-- Claim C3: for every sequence of inbound chunks with arbitrary arrival
clock values and no interruption, the emitted start times form a chain in
which each chunk's start is at least the previous chunk's start (starts are
non-decreasing) and at least the previous chunk's start plus its duration
(buffers never overlap) (part_001 lines 346-367). -/
theorem starts_monotone_nonoverlapping (st : SchedState) (chunks : List (ℚ × AudioBufferM)) :
    List.Chain' (fun a b : ℚ × ℚ => a.1 ≤ b.1 ∧ a.1 + a.2 ≤ b.1)
      (startsOf (runMsgs st (chunkStream chunks)).2) :=
  (startsOf_chunkStream_chain chunks st).1

/-- State of the pipeline between atomic steps of the browser event loop:
the scheduler state plus the queue of chunks whose handler has run its
synchronous prefix (through line 351) and is suspended at the decode await
(line 354). -/
structure LiveState where
  sched : SchedState
  pending : List AudioBufferM
deriving DecidableEq

/-- Atomic steps of the event loop around onmessage.  An arriving audio
message runs the handler up to the decode await; an arriving interruption
message has no await before the interrupted branch, so it runs atomically;
a decode completion resumes the suspended handler (lines 356-366) for the
front pending chunk. -/
inductive WireEvent where
  | audioArrive (now : ℚ) (d : InlineData)
  | interruptArrive
  | decodeDone
deriving DecidableEq

/-- Small-step semantics of the event loop.  A malformed chunk's rejection
at the await simply abandons its handler, so it never reaches phaseB. -/
def liveStep (ls : LiveState) : WireEvent → LiveState × List SchedAction
  | WireEvent.audioArrive now d =>
      match d with
      | InlineData.ok buf => (⟨phaseA ls.sched now, ls.pending ++ [buf]⟩, [])
      | InlineData.malformed => (⟨phaseA ls.sched now, ls.pending⟩, [])
  | WireEvent.interruptArrive =>
      let r := interruptStep ls.sched
      (⟨r.1, ls.pending⟩, r.2)
  | WireEvent.decodeDone =>
      match ls.pending with
      | [] => (ls, [])
      | buf :: rest =>
          let r := phaseB ls.sched buf
          (⟨r.1, rest⟩, [r.2])

/-- Coherence of the two views: an audio arrival immediately followed by its
decode completion equals the sequential handler. -/
lemma liveStep_arrive_decode (st : SchedState) (now : ℚ) (buf : AudioBufferM) :
    (liveStep (liveStep ⟨st, []⟩ (WireEvent.audioArrive now (InlineData.ok buf))).1
        WireEvent.decodeDone).1.sched = (processMsg st now (audioMsg buf)).1 ∧
    (liveStep (liveStep ⟨st, []⟩ (WireEvent.audioArrive now (InlineData.ok buf))).1
        WireEvent.decodeDone).2 = (processMsg st now (audioMsg buf)).2 :=
  ⟨rfl, rfl⟩

/-- Claim C5 (counterexample): the claim asserts that the per-chunk decode
completes before the scheduling calculation reads the clock.  In the code the
clock is read and folded into the cursor at line 351, before the decode await
at line 354: immediately after a chunk arrives at clock value 5, the cursor
already equals max(0, 5) = 5 while the chunk still sits in the pending queue,
i.e. its decode has not completed. -/
theorem now_read_before_decode_completes :
    liveStep ⟨⟨0, [], 0⟩, []⟩ (WireEvent.audioArrive 5 (InlineData.ok ⟨24000, 24000⟩)) =
      (⟨⟨5, [], 0⟩, [⟨24000, 24000⟩]⟩, []) ∧
    (⟨⟨5, [], 0⟩, [⟨24000, 24000⟩]⟩ : LiveState).pending ≠ [] := by
  decide

/-- Claim C5 (amended): the clock is read before the decode completes, not
after; however the start time is read from the cursor again after the await
(line 364), so a chunk whose decode completes right after an interruption is
started at the post-reset cursor value 0 — independent of the pre-reset
cursor — and the cursor then continues from its duration. -/
theorem inflight_chunk_uses_post_reset_cursor (st : SchedState) (buf : AudioBufferM) :
    (liveStep ⟨st, [buf]⟩ WireEvent.interruptArrive).1.sched.nextStartTime = 0 ∧
    (liveStep (liveStep ⟨st, [buf]⟩ WireEvent.interruptArrive).1
        WireEvent.decodeDone).2 =
      [SchedAction.start st.nextId 0 buf.duration] ∧
    (liveStep (liveStep ⟨st, [buf]⟩ WireEvent.interruptArrive).1
        WireEvent.decodeDone).1.sched.nextStartTime = buf.duration := by
  refine ⟨rfl, rfl, ?_⟩
  show (0 : ℚ) + buf.duration = buf.duration
  rw [zero_add]

/-- Claim C6 (counterexample): the claim asserts the scheduler state is
unchanged by a failed chunk.  From cursor 0 with an empty live set, a
malformed chunk arriving at clock value 1 leaves the live set alone and
schedules nothing, but the cursor has already been advanced to
max(0, 1) = 1 by line 351 before the decode failure, so the state changed. -/
theorem malformed_chunk_changes_cursor :
    processMsg ⟨0, [], 0⟩ 1 malformedMsg ≠ ((⟨0, [], 0⟩ : SchedState), ([] : List SchedAction)) := by
  decide

/-- Claim C6 (amended): a malformed chunk alone is dropped — it schedules
nothing and leaves the live set untouched — and the handler of every later
message still runs; the failed chunk does advance the cursor to
max(cursor, now), but since the playback clock is non-decreasing, every
subsequent valid chunk is scheduled exactly as it would have been had the
malformed chunk never arrived (part_001 lines 344-376). -/
theorem malformed_chunk_dropped_pipeline_continues (st : SchedState) (now nowL : ℚ)
    (buf : AudioBufferM) (h : now ≤ nowL) :
    (processMsg st now malformedMsg).2 = [] ∧
    (processMsg st now malformedMsg).1.sources = st.sources ∧
    (processMsg st now malformedMsg).1.nextStartTime = max st.nextStartTime now ∧
    processMsg (processMsg st now malformedMsg).1 nowL (audioMsg buf) =
      processMsg st nowL (audioMsg buf) := by
  refine ⟨rfl, rfl, rfl, ?_⟩
  have hm : max (max st.nextStartTime now) nowL = max st.nextStartTime nowL := by
    rw [max_assoc, max_eq_right h]
  simp [processMsg, audioMsg, malformedMsg, phaseA, phaseB, hm]

/-- Witness for malformed_chunk_dropped_pipeline_continues: a malformed chunk
at clock 1 from the initial state, followed by a one-second valid chunk at
clock 2. -/
theorem malformed_chunk_dropped_pipeline_continues_witness :
    (processMsg ⟨0, [], 0⟩ 1 malformedMsg).2 = [] ∧
    (processMsg ⟨0, [], 0⟩ 1 malformedMsg).1.sources = (⟨0, [], 0⟩ : SchedState).sources ∧
    (processMsg ⟨0, [], 0⟩ 1 malformedMsg).1.nextStartTime =
      max (⟨0, [], 0⟩ : SchedState).nextStartTime 1 ∧
    processMsg (processMsg ⟨0, [], 0⟩ 1 malformedMsg).1 2 (audioMsg ⟨24000, 24000⟩) =
      processMsg ⟨0, [], 0⟩ 2 (audioMsg ⟨24000, 24000⟩) :=
  malformed_chunk_dropped_pipeline_continues ⟨0, [], 0⟩ 1 2 ⟨24000, 24000⟩ (by norm_num)

/-- A transport media blob.  Modelled from the spec: createPcmBlob lives in
src/services/audioUtils.ts, which is absent from src/.  Spec sections 4.1 and
6: the frame is clamped to the valid signal range, quantized to 16-bit signed
PCM, and wrapped with mime "audio/pcm;rate=16000". -/
structure PcmBlob where
  mimeType : String
  data : List ℤ
deriving DecidableEq

/-- Clamp one sample to the valid signal range. -/
def clampSample (x : ℚ) : ℚ := max (-1) (min 1 x)

/-- Quantize one clamped sample to a 16-bit signed integer. -/
def quantizeSample (x : ℚ) : ℤ := Int.floor (clampSample x * 32767)

/-- Modelled from the spec: createPcmBlob (absent audioUtils.ts), per spec
sections 4.1 and 6. -/
def createPcmBlob (frame : List ℚ) : PcmBlob :=
  ⟨"audio/pcm;rate=16000", frame.map quantizeSample⟩

/-- The two copies of the mute flag relevant to the capture callback:
capturedMicActive is the value of micActive that processor.onaudioprocess
closed over when it was installed inside onopen (part_001 line 334), and
micActive is the current React state, which micActiveRef tracks (lines
408-412) but which the installed callback never consults. -/
structure MuteState where
  capturedMicActive : Bool
  micActive : Bool
deriving DecidableEq

/-- What one capture frame produces (part_001 lines 285-287 and 333-342):
the audio graph routes every frame through the input analyser (the
Visualization Tap) unconditionally, and the callback sends a PCM blob unless
the value it reads — the captured one — is false. -/
structure FrameEffects where
  analyserFrame : Option (List ℚ)
  sentBlob : Option PcmBlob
deriving DecidableEq

/-- Effect of processor.onaudioprocess on one frame. -/
def captureFrame (ms : MuteState) (frame : List ℚ) : FrameEffects :=
  { analyserFrame := some frame,
    sentBlob := if ms.capturedMicActive then some (createPcmBlob frame) else none }

/-- Mute state at session setup: micActive is initialized to true (part_001
line 242) and the effect installing the callback runs once on mount, so the
closure captures true. -/
def setupMuteState : MuteState := ⟨true, true⟩

/-- The mute button (line 459) flips the React state, and micActiveRef
follows it (line 412), but the captured value inside the installed callback
is unchanged. -/
def toggleMute (ms : MuteState) : MuteState := ⟨ms.capturedMicActive, !ms.micActive⟩

/-- Claim C4 (code bug, evaluated at the failing input): after the user
toggles mute, micActive is false, yet every capture frame still produces a
transmitted blob, because onaudioprocess tests the micActive value captured
at setup (true) — the code's own comment at part_001 lines 408-410 says the
callback needs micActiveRef, but the callback never reads it.  The second
half of the claim does hold: the frame reaches the input analyser (the
Visualization Tap) regardless of mute state. -/
theorem mute_toggle_ineffective_at_failing_input (frame : List ℚ) :
    (toggleMute setupMuteState).micActive = false ∧
    (captureFrame (toggleMute setupMuteState) frame).sentBlob = some (createPcmBlob frame) ∧
    (captureFrame (toggleMute setupMuteState) frame).analyserFrame = some frame :=
  ⟨rfl, rfl, rfl⟩

/-- Lifecycle state of an AudioContext: running until close() completes,
then closed. -/
inductive CtxState where
  | running
  | closed
deriving DecidableEq

/-- The resources torn down by the cleanup closure (part_001 lines 388-395):
the live session, the microphone stream track, the script processor and
media-stream source connections, and the two audio contexts. -/
structure Resources where
  sessionOpen : Bool
  trackLive : Bool
  processorConnected : Bool
  sourceConnected : Bool
  outCtx : CtxState
  inCtx : CtxState
deriving DecidableEq

/-- Result of one invocation of the cleanup closure: the resource state
afterwards, how many times the microphone track transitioned to ended
(MediaStreamTrack.stop is a no-op on an ended track), and how many of the
AudioContext.close() calls rejected (the Web Audio API rejects close() with
InvalidStateError when the context is already closed). -/
structure CleanupResult where
  state : Resources
  micReleases : Nat
  rejections : Nat
deriving DecidableEq

/-- Number of rejections produced by calling close() on a context in the
given state: per the Web Audio API, 1 if it is already closed, else 0. -/
def ctxCloseRejects (c : CtxState) : Nat :=
  if c = CtxState.closed then 1 else 0

/-- The cleanup closure (part_001 lines 388-395): session.close(),
stream.getTracks().forEach(t => t.stop()), processor.disconnect(),
source.disconnect(), ctx.close(), inputCtx.close().  Disconnect and
track.stop never fail and are idempotent; close() on an already-closed
context rejects. -/
def cleanup (r : Resources) : CleanupResult :=
  { state := { sessionOpen := false, trackLive := false, processorConnected := false,
               sourceConnected := false, outCtx := CtxState.closed, inCtx := CtxState.closed },
    micReleases := if r.trackLive then 1 else 0,
    rejections := ctxCloseRejects r.outCtx + ctxCloseRejects r.inCtx }

/-- All resources as owned by a fully initialized active session. -/
def openResources : Resources :=
  ⟨true, true, true, true, CtxState.running, CtxState.running⟩

/-- Claim C7 (counterexample): the claim asserts the second close after a
completed close does not fail, but the second invocation of the cleanup
closure calls close() on the two already-closed AudioContexts, and both
calls reject with InvalidStateError. -/
theorem second_cleanup_rejects :
    (cleanup (cleanup openResources).state).rejections ≠ 0 := by
  decide

/-- Claim C7 (amended): the second invocation of the cleanup closure leaves
every resource state unchanged and the microphone track is released exactly
once — on the first call, never again — but the second call is not
failure-free: its two AudioContext.close() calls each reject with
InvalidStateError on the already-closed contexts. -/
theorem cleanup_idempotent_state_mic_once :
    (cleanup (cleanup openResources).state).state = (cleanup openResources).state ∧
    (cleanup openResources).micReleases = 1 ∧
    (cleanup (cleanup openResources).state).micReleases = 0 ∧
    (cleanup openResources).rejections = 0 ∧
    (cleanup (cleanup openResources).state).rejections = 2 := by
  decide

/-- The synthetic start turn sent from onopen (part_001 lines 320-330). -/
structure ClientTurn where
  role : String
  text : String
  turnComplete : Bool
deriving DecidableEq

/-- The exact start turn the session sends: role user, the start-signal text,
turnComplete true. -/
def startTurn : ClientTurn :=
  ⟨"user", "The show is starting. Introduce yourself and ask the first question now.", true⟩

/-- Everything the session sends over the transport: the start turn or a
capture media blob. -/
inductive Outbound where
  | turn (t : ClientTurn)
  | media (b : PcmBlob)
deriving DecidableEq

/-- The ordered outbound traffic of a session whose capture produced the
given frames (part_001 lines 314-342): onopen registers the start-turn send
on the session promise before installing onaudioprocess, and promise
callbacks run in registration order, so the start turn precedes every
capture blob; each frame then contributes a blob exactly when the capture
callback transmits it. -/
def sessionOutbound (ms : MuteState) (frames : List (List ℚ)) : List Outbound :=
  Outbound.turn startTurn ::
    frames.filterMap fun f => Option.map Outbound.media (captureFrame ms f).sentBlob

/-- Claim C8: immediately after the transport opens and before any capture
blob, the session sends exactly one synthetic start turn of shape
role user, start-signal text, turnComplete true: the start turn is the first
outbound message and nothing else in the traffic is a turn (part_001 lines
314-331). -/
theorem start_turn_sent_once_first (ms : MuteState) (frames : List (List ℚ)) :
    (sessionOutbound ms frames).head? = some (Outbound.turn startTurn) ∧
    (∀ o ∈ (sessionOutbound ms frames).tail, ∀ t : ClientTurn, o ≠ Outbound.turn t) ∧
    startTurn.role = "user" ∧ startTurn.turnComplete = true := by
  refine ⟨rfl, ?_, rfl, rfl⟩
  intro o ho t
  simp only [sessionOutbound, List.tail_cons, List.mem_filterMap] at ho
  obtain ⟨f, _, hf⟩ := ho
  cases hb : (captureFrame ms f).sentBlob with
  | none => rw [hb] at hf; simp at hf
  | some b =>
      rw [hb] at hf
      simp only [Option.map_some', Option.some.injEq] at hf
      rw [← hf]
      intro hcontra
      exact Outbound.noConfusion hcontra

/-- A persisted leaderboard entry (src/types.ts lines 31-37); the Lean type
itself is the shape name, score, topic, difficulty, date. -/
structure LeaderboardEntry where
  name : String
  score : ℤ
  topic : String
  difficulty : String
  date : String
deriving DecidableEq

/-- The order the comparator (a, b) => b.score - a.score sorts by:
descending score. -/
def scoreDesc (a b : LeaderboardEntry) : Prop := b.score ≤ a.score

instance : DecidableRel scoreDesc :=
  fun a b => inferInstanceAs (Decidable (b.score ≤ a.score))

instance : IsTotal LeaderboardEntry scoreDesc :=
  ⟨fun a b => le_total b.score a.score⟩

instance : IsTrans LeaderboardEntry scoreDesc :=
  ⟨fun _ _ _ h1 h2 => le_trans h2 h1⟩

/-- handleSaveScore (VisualTrivia.tsx lines 213-228): append the new entry to
the stored list, sort descending by score (JavaScript sort is stable;
insertion sort models it), keep the first 50, persist. -/
def handleSaveScore (existing : List LeaderboardEntry) (entry : LeaderboardEntry) :
    List LeaderboardEntry :=
  (List.insertionSort scoreDesc (existing ++ [entry])).take 50

/-- Claim C9: for every save, the persisted leaderboard list is sorted in
descending order by score and has at most 50 entries, each of the
LeaderboardEntry shape (VisualTrivia.tsx lines 213-228). -/
theorem leaderboard_sorted_capped (existing : List LeaderboardEntry)
    (entry : LeaderboardEntry) :
    List.Sorted scoreDesc (handleSaveScore existing entry) ∧
    (handleSaveScore existing entry).length ≤ 50 := by
  constructor
  · exact List.Pairwise.sublist (List.take_sublist _ _)
      (List.sorted_insertionSort scoreDesc _)
  · rw [handleSaveScore, List.length_take]
    exact min_le_left _ _

/-- One score update in handleAnswer (VisualTrivia.tsx lines 189-196):
setScore(s => s + 100) on a correct answer, setScore(s => Math.max(0, s - 20))
on an incorrect one. -/
def scoreStep (s : ℤ) (isCorrect : Bool) : ℤ :=
  if isCorrect then s + 100 else max 0 (s - 20)

/-- The score over a quiz run: the fold of scoreStep over the answers from
the initial score 0 (useState(0), line 44); setScore occurs nowhere outside
handleAnswer, so no other operation changes the score. -/
def runScore (answers : List Bool) : ℤ :=
  answers.foldl scoreStep 0

/-- The fold of scoreStep preserves non-negativity. -/
lemma foldl_scoreStep_nonneg (answers : List Bool) :
    ∀ s : ℤ, 0 ≤ s → 0 ≤ answers.foldl scoreStep s := by
  induction answers with
  | nil => intro s hs; simpa using hs
  | cons a rest ih =>
      intro s hs
      rw [List.foldl_cons]
      refine ih _ ?_
      cases a with
      | true => simp only [scoreStep, if_true]; linarith
      | false => exact le_max_left _ _

/-- Claim C10: the visual-quiz score starts at 0, gains exactly 100 on a
correct answer, loses 20 clamped at a floor of 0 on an incorrect one, and is
therefore never negative over any sequence of answers (VisualTrivia.tsx
lines 178-197). -/
theorem score_never_negative :
    (∀ s : ℤ, scoreStep s true = s + 100) ∧
    (∀ s : ℤ, scoreStep s false = max 0 (s - 20)) ∧
    (∀ answers : List Bool, 0 ≤ runScore answers) :=
  ⟨fun _ => rfl, fun _ => rfl,
   fun answers => foldl_scoreStep_nonneg answers 0 le_rfl⟩
